import Mathlib

/-!
Verification of the session-authentication coordinator and cookie-propagating
reverse proxy of the `vehapiproxi` repository.

The development shallowly embeds the relevant JavaScript source:

* `CookieJar` (`setCookie`, `getCookieHeader`, `getAllCookies`) and the
  redirect-following login loop of `AuthManager.authenticate` (src/unnamed/part_003);
* `AuthManager.isSessionValid`, `invalidateSession`, `getCookies`,
  `getCookieHeader` (src/unnamed/part_003);
* the single-flight promise discipline of `authenticate` (src/unnamed/part_003,
  lines 216-343), embedded as a step relation on an explicit system state;
* the 401/403 reaction of the two proxy response handlers (src/src/function.js).

Strings are modelled by Lean `String` (logically a list of characters); the
JavaScript string operations `split`, `trim`, `includes` and `startsWith` are
embedded as executable functions on `List Char`.  The network is modelled as a
script: a list of responses (or transport errors) consumed one per issued
request, which is exactly the "scripted chain" setting of the testable
properties in the specification.
-/

/-- Character-level prefix test: `startsWithChars pat l` is true iff `pat` is a
prefix of `l`.  Used to embed JavaScript's `String.prototype.startsWith` and as
a building block for substring search. -/
def startsWithChars : List Char → List Char → Bool
  | [], _ => true
  | _ :: _, [] => false
  | p :: ps, t :: ts => p = t && startsWithChars ps ts

/-- Character-level substring test: `hasSubChars pat l` is true iff `pat`
occurs contiguously inside `l`. -/
def hasSubChars (pat : List Char) : List Char → Bool
  | [] => pat.isEmpty
  | t :: ts => startsWithChars pat (t :: ts) || hasSubChars pat ts

/-- Embedding of JavaScript `s.includes(pat)`: substring containment. -/
def includesStr (s pat : String) : Bool :=
  hasSubChars pat.data s.data

/-- Whitespace recognizer for the embedding of JavaScript `String.prototype.trim`. -/
def isWsChar (c : Char) : Bool :=
  c = ' ' || c = '\t' || c = '\n' || c = '\r'

/-- Left trim on character lists. -/
def trimLeftChars (l : List Char) : List Char :=
  l.dropWhile isWsChar

/-- Right trim on character lists. -/
def trimRightChars (l : List Char) : List Char :=
  (l.reverse.dropWhile isWsChar).reverse

/-- Embedding of JavaScript `String.prototype.trim` on character lists. -/
def trimChars (l : List Char) : List Char :=
  trimRightChars (trimLeftChars l)

/-- Embedding of JavaScript `String.prototype.split(sep)` for a one-character
separator, on character lists.  `splitListOn sep l` never returns `[]`. -/
def splitListOn (sep : Char) : List Char → List (List Char)
  | [] => [[]]
  | c :: cs =>
    if c = sep then [] :: splitListOn sep cs
    else
      match splitListOn sep cs with
      | [] => [[c]]
      | h :: t => (c :: h) :: t

/-- Split a character list at its first `'='`, returning the parts before and
after it; a list without `'='` is returned whole with an empty remainder.
This is the usual name/value split of a cookie parser. -/
def splitFirstEq : List Char → List Char × List Char
  | [] => ([], [])
  | c :: cs =>
    if c = '=' then ([], cs)
    else
      let p := splitFirstEq cs
      (c :: p.1, p.2)

/-- One cookie of the in-memory session and of `CookieJar.getAllCookies`:
`{name, value, domain}` (src/unnamed/part_003, lines 45-51). -/
structure Cookie where
  name : String
  value : String
  domain : String
deriving Repr, DecidableEq

/-- JavaScript `Map.prototype.set` on the jar's ordered entry list: an existing
key is updated in place, a fresh key is appended (insertion order preserved,
as `CookieJar.cookies` is a `Map`). -/
def jarInsert (jar : List Cookie) (n v d : String) : List Cookie :=
  if jar.any (fun c => c.name = n) then
    jar.map (fun c => if c.name = n then ⟨n, v, d⟩ else c)
  else jar ++ [⟨n, v, d⟩]

/-- Embedding of `CookieJar.setCookie` (src/unnamed/part_003, lines 22-32):
split the `Set-Cookie` header on `';'`, take the first attribute, trim it,
split it on every `'='`, and store the first two fragments as name and value
when both are non-empty (JavaScript destructuring plus truthiness check). -/
def setCookieJar (jar : List Cookie) (header : String) (domain : String) : List Cookie :=
  if header = "" then jar
  else
    let parts := splitListOn ';' header.data
    let nameValue := trimChars (parts.headD [])
    match splitListOn '=' nameValue with
    | n :: v :: _ =>
      if n ≠ [] ∧ v ≠ [] then jarInsert jar (String.mk n) (String.mk v) domain else jar
    | _ => jar

/-- Embedding of the single leading-dot removal `domain.replace(/^\./, '')`
in `CookieJar.getCookieHeader`. -/
def stripLeadingDot (d : String) : String :=
  match d.data with
  | '.' :: rest => String.mk rest
  | _ => d

/-- Embedding of `Array.prototype.join('; ')`. -/
def joinSemi : List String → String
  | [] => ""
  | [x] => x
  | x :: xs => x ++ "; " ++ joinSemi xs

/-- Embedding of `CookieJar.getCookieHeader(hostname)` (src/unnamed/part_003,
lines 34-43): keep the cookies whose domain matches the hostname by two-sided
substring containment, serialize as `name=value`, join with `'; '`. -/
def jarCookieHeader (jar : List Cookie) (hostname : String) : String :=
  joinSemi ((jar.filter (fun c =>
    includesStr hostname (stripLeadingDot c.domain) || includesStr c.domain hostname)).map
    (fun c => c.name ++ "=" ++ c.value))

/-- The in-memory session owned by `AuthManager`: `this.cookies` and
`this.lastAuthTime` (`none` models JavaScript `null`; `some 0` is the value
written by `invalidateSession`). -/
structure Session where
  cookies : List Cookie
  lastAuthTime : Option Int
deriving Repr, DecidableEq

/-- `config.maxSessionAge` (src/src/config.js, line 15): 24 hours in milliseconds. -/
def maxSessionAge : Int := 24 * 60 * 60 * 1000

/-- JavaScript falsiness of `this.lastAuthTime`: `null` and `0` are falsy. -/
def timeFalsy : Option Int → Bool
  | none => true
  | some t => t = 0

/-- Embedding of `AuthManager.isSessionValid` (src/unnamed/part_003, lines
135-142) as a pure function of the cookie list, the stored timestamp and the
current time `now` (`Date.now()`). -/
def isSessionValid (cookies : List Cookie) (lastAuthTime : Option Int) (now : Int) : Bool :=
  if cookies.length = 0 || timeFalsy lastAuthTime then false
  else decide (now - (lastAuthTime.getD 0) < maxSessionAge)

example : isSessionValid [⟨"sid", "a", "motor.com"⟩] (some 5) 6 = true := by decide
example : isSessionValid [] (some 5) 6 = false := by decide
example : isSessionValid [⟨"sid", "a", "motor.com"⟩] (some 0) 6 = false := by decide
example : isSessionValid [⟨"sid", "a", "motor.com"⟩] (some 1) (1 + 24 * 60 * 60 * 1000) = false := by decide
example : setCookieJar [] "sid=abc; path=/; domain=.example.com" "h.example.com"
    = [⟨"sid", "abc", "h.example.com"⟩] := by decide
example : setCookieJar [] "sid=a=b; path=/" "h" = [⟨"sid", "a", "h"⟩] := by decide
example : setCookieJar [] "sid" "h" = [] := by decide
example : setCookieJar [] "sid=" "h" = [] := by decide
example : setCookieJar [] "=v" "h" = [] := by decide
example : jarCookieHeader [⟨"a", "1", ".example.com"⟩, ⟨"b", "2", "other.org"⟩] "www.example.com"
    = "a=1" := by decide

/-- Hostname extraction for an absolute URL, embedding the use of
`new URL(currentUrl).hostname` in the login loop: the scheme prefix is removed
and the host runs until a delimiter. -/
def urlHostname (url : String) : String :=
  let rest :=
    if startsWithChars "https://".data url.data then url.data.drop 8
    else if startsWithChars "http://".data url.data then url.data.drop 7
    else url.data
  String.mk (rest.takeWhile (fun c => !(c = '/' || c = '?' || c = ':' || c = '#')))

/-- Embedding of `new URL(location, currentUrl).href`: an absolute location is
taken as is; a relative location is resolved against the base URL's origin.
The scripted chains of the specification's properties use absolute,
already-normalized locations, for which the library resolution is the
identity. -/
def resolveUrl (location base : String) : String :=
  if startsWithChars "http://".data location.data
      || startsWithChars "https://".data location.data then
    location
  else
    (if startsWithChars "https://".data base.data then "https://" else "http://")
      ++ urlHostname base ++ location

/-- One scripted HTTP response: status code, optional `Location` header and the
list of `Set-Cookie` headers, as consumed from `httpsRequest`
(src/unnamed/part_003, lines 55-92). -/
structure HttpResponse where
  statusCode : Nat
  location : Option String
  setCookies : List String
deriving Repr, DecidableEq

/-- A scripted network: one entry per issued request, either a response or a
transport error (a rejected `httpsRequest` promise).  An exhausted script is
treated as a transport error. -/
def Script := List (Except String HttpResponse)

/-- The progress record `AuthManager.authProgress` (src/unnamed/part_003,
lines 100-108). -/
structure AuthProgress where
  status : String
  step : Option String
  message : Option String
  progress : Nat
  error : Option String
  startedAt : Option Int
  completedAt : Option Int
deriving Repr, DecidableEq

/-- The progress record written by the constructor and by
`AuthManager.resetProgress` (src/unnamed/part_003, lines 358-368). -/
def initialProgress : AuthProgress :=
  ⟨"idle", none, none, 0, none, none, none⟩

/-- JavaScript `this.authProgress.startedAt || Date.now()`: `null` and `0` are
replaced by the current time. -/
def startedOr (prev : Option Int) (now : Int) : Int :=
  match prev with
  | none => now
  | some t => if t = 0 then now else t

/-- Embedding of `AuthManager._updateProgress` (src/unnamed/part_003, lines
121-130); a `none` percentage keeps the previous one. -/
def updateProgress (p : AuthProgress) (now : Int) (status step message : String)
    (percent : Option Nat) : AuthProgress :=
  { p with
    status := status
    step := some step
    message := some message
    progress := percent.getD p.progress
    startedAt := some (startedOr p.startedAt now) }

/-- Fixed EBSCO login URL of the simplified flow (src/unnamed/part_003, line 237). -/
def ebscoLoginUrl : String :=
  "https://search.ebscohost.com/login.aspx?authtype=uid&user=pl7321r&password=PL%3F7321R&profile=autorepso&groupid=remote"

/-- Canonical vendor entry URL requested once the chain reaches the vendor
(src/unnamed/part_003, line 284). -/
def motorUrl : String := "https://sites.motor.com/m1"

/-- Redirect bound of the login loop (src/unnamed/part_003, line 241). -/
def maxRedirects : Nat := 10

/-- Result of the redirect-following loop: the error of the first failed
request if any, the final cookie jar, the URLs requested in order, and the
progress record as updated inside the loop. -/
structure LoopOut where
  err : Option String
  jar : List Cookie
  requests : List String
  prog : AuthProgress
deriving Repr, DecidableEq

/-- The break path of the loop body once the response is not a followed
redirect (src/unnamed/part_003, lines 278-303): if the current URL contains
`motor.com`, one additional request is issued to the vendor entry URL and its
cookies are stored under the `sites.motor.com` domain; otherwise the loop just
ends. -/
def motorFinal (script : List (Except String HttpResponse)) (currentUrl : String)
    (jar : List Cookie) (requests : List String) (prog : AuthProgress) (now : Int) : LoopOut :=
  if includesStr currentUrl "motor.com" then
    let prog := updateProgress prog now "authenticating" "motor_connect"
      "Connecting to Motor.com..." (some 75)
    let _cookieHeaderForMotor := jarCookieHeader jar "sites.motor.com"
    let prog := updateProgress prog now "authenticating" "motor_auth"
      "Authenticating with Motor.com..." (some 85)
    match script with
    | [] => ⟨some "no response", jar, requests ++ [motorUrl], prog⟩
    | .error e :: _ => ⟨some e, jar, requests ++ [motorUrl], prog⟩
    | .ok fr :: _ =>
      ⟨none, fr.setCookies.foldl (fun j h => setCookieJar j h "sites.motor.com") jar,
        requests ++ [motorUrl], prog⟩
  else ⟨none, jar, requests, prog⟩

/-- Embedding of the manual redirect-following loop of
`AuthManager.authenticate` (src/unnamed/part_003, lines 247-304).  Each
iteration issues one request to `currentUrl` (consuming the next script
entry), stores every `Set-Cookie` header into the jar under the current
hostname, updates the progress record, then either follows a 3xx `Location`
(incrementing the redirect counter) or falls through to `motorFinal`.  The
loop guard is `redirectCount < maxRedirects`; leaving the loop through the
guard is a normal exit, not an error. -/
def loopIter (script : List (Except String HttpResponse)) (currentUrl : String)
    (jar : List Cookie) (redirectCount : Nat) (requests : List String)
    (prog : AuthProgress) (now : Int) : LoopOut :=
  if redirectCount < maxRedirects then
    match script with
    | [] => ⟨some "no response", jar, requests ++ [currentUrl], prog⟩
    | .error e :: _ => ⟨some e, jar, requests ++ [currentUrl], prog⟩
    | .ok r :: rest =>
      let hostname := urlHostname currentUrl
      let jar := r.setCookies.foldl (fun j h => setCookieJar j h hostname) jar
      let prog := updateProgress prog now "authenticating" "redirecting"
        ("Following redirect " ++ toString (redirectCount + 1) ++ "...")
        (some (min (10 + redirectCount * 15) 70))
      if 300 ≤ r.statusCode ∧ r.statusCode < 400 then
        match r.location with
        | some loc =>
          loopIter rest (resolveUrl loc currentUrl) jar (redirectCount + 1)
            (requests ++ [currentUrl]) prog now
        | none => motorFinal rest currentUrl jar (requests ++ [currentUrl]) prog now
      else motorFinal rest currentUrl jar (requests ++ [currentUrl]) prog now
  else ⟨none, jar, requests, prog⟩

/-- The durable record written by `saveSession` / deleted by `deleteSession`
(src/unnamed/part_003, lines 176-201): the Firestore document holding the
cookies and the timestamp. -/
structure StoreRecord where
  cookies : List Cookie
  timestamp : Option Int
deriving Repr, DecidableEq

/-- Cookie extraction after the loop (src/unnamed/part_003, lines 306-316):
keep the cookies whose domain contains `motor.com`; when that filter is empty
fall back to every collected cookie. -/
def extractSessionCookies (jar : List Cookie) : List Cookie :=
  let motor := jar.filter (fun c => includesStr c.domain "motor.com")
  if motor.isEmpty then jar else motor

/-- State observed after one authentication attempt: the error (if the attempt
threw), the session, the progress record, the durable store, plus the list of
issued requests and the final jar, exposed for the statements about the
redirect-following client. -/
structure AttemptOut where
  err : Option String
  session : Session
  prog : AuthProgress
  store : Option StoreRecord
  requests : List String
  jar : List Cookie
deriving Repr, DecidableEq

/-- Continuation of one authentication attempt after the redirect loop
(src/unnamed/part_003, lines 306-335).  On a normal loop exit the session is
overwritten with the extracted cookies and the current time, the record is
persisted (`saveSession`) and the progress is marked `success`; a transport
error from any request reaches the catch block, which marks the progress
`error` (message `Authentication failed: ...`), records the error and
rethrows, leaving session and store untouched. -/
def authFinish (lo : LoopOut) (now : Int) (sess : Session) (store : Option StoreRecord) :
    AttemptOut :=
  match lo.err with
  | some e =>
    let pe := updateProgress lo.prog now "error" "failed" ("Authentication failed: " ++ e) (some 0)
    let pe := { pe with error := some e, completedAt := some now }
    ⟨some e, sess, pe, store, lo.requests, lo.jar⟩
  | none =>
    let newCookies := extractSessionCookies lo.jar
    let sess2 : Session := ⟨newCookies, some now⟩
    let p3 := updateProgress lo.prog now "authenticating" "saving" "Saving session..." (some 95)
    let store2 := some (⟨sess2.cookies, sess2.lastAuthTime⟩ : StoreRecord)
    let p4 := updateProgress p3 now "success" "complete" "Authentication successful!" (some 100)
    let p4 := { p4 with completedAt := some now }
    ⟨none, sess2, p4, store2, lo.requests, lo.jar⟩

/-- Embedding of the body of one authentication attempt: the async closure of
`AuthManager.authenticate` (src/unnamed/part_003, lines 232-336) — the two
initial progress updates, the redirect-following loop started at the EBSCO
login URL with a fresh jar, and the `authFinish` continuation. -/
def authAttempt (script : List (Except String HttpResponse)) (now : Int) (sess : Session)
    (prog : AuthProgress) (store : Option StoreRecord) : AttemptOut :=
  let p1 := updateProgress prog now "authenticating" "init" "Starting authentication..." (some 0)
  let p2 := updateProgress p1 now "authenticating" "ebsco_login" "Connecting to EBSCO..." (some 10)
  authFinish (loopIter script ebscoLoginUrl [] 0 [] p2 now) now sess store

example :
    (authAttempt [Except.ok ⟨200, none, ["a=1"]⟩] 5 ⟨[], none⟩ initialProgress none).err
      = none := by decide
example :
    (authAttempt [Except.ok ⟨200, none, ["a=1"]⟩] 5 ⟨[], none⟩ initialProgress none).requests
      = [ebscoLoginUrl] := by decide
example :
    (authAttempt [Except.ok ⟨200, none, ["a=1"]⟩] 5 ⟨[], none⟩ initialProgress none).session
      = ⟨[⟨"a", "1", "search.ebscohost.com"⟩], some 5⟩ := by decide
example :
    (authAttempt [Except.error "boom"] 5 ⟨[], none⟩ initialProgress none).prog.status
      = "error" := by decide

/-- Embedding of `AuthManager.invalidateSession` (src/unnamed/part_003, lines
206-211): set `lastAuthTime` to `0`, clear the cookies, and delete the durable
record (`deleteSession`; a Firestore failure is caught and logged, the normal
path removes the record). -/
def invalidateSession (sess : Session) (_store : Option StoreRecord) :
    Session × Option StoreRecord :=
  let sess := { sess with lastAuthTime := some 0 }
  let sess := { sess with cookies := [] }
  (sess, none)

/-- Embedding of `AuthManager.getCookies` (src/unnamed/part_003, lines
348-353): when the session is valid the current cookies are returned without
any authentication; otherwise one authentication attempt runs first and its
error, if any, propagates. -/
def getCookiesM (script : List (Except String HttpResponse)) (now : Int) (sess : Session)
    (prog : AuthProgress) (store : Option StoreRecord) : Except String (List Cookie) :=
  if isSessionValid sess.cookies sess.lastAuthTime now then Except.ok sess.cookies
  else
    let out := authAttempt script now sess prog store
    match out.err with
    | some e => Except.error e
    | none => Except.ok out.session.cookies

/-- Embedding of `AuthManager.getCookieHeader` (src/unnamed/part_003, lines
373-376): serialize the cookies returned by `getCookies` as `name=value`
pairs joined by `'; '`. -/
def getCookieHeaderM (script : List (Except String HttpResponse)) (now : Int) (sess : Session)
    (prog : AuthProgress) (store : Option StoreRecord) : Except String String :=
  (getCookiesM script now sess prog store).map
    (fun cs => joinSemi (cs.map (fun c => c.name ++ "=" ++ c.value)))

/-- A standard cookie parser, used by the round-trip property of the
specification: split the header on `';'`, trim each attribute, and split each
attribute at its first `'='` into a name/value pair. -/
def parseCookieHeader (s : String) : List (String × String) :=
  (splitListOn ';' s.data).map (fun f =>
    let t := trimChars f
    (String.mk (splitFirstEq t).1, String.mk (splitFirstEq t).2))

example : parseCookieHeader "sid=abc; tok=x" = [("sid", "abc"), ("tok", "x")] := by decide
example : parseCookieHeader "sid=a; b" = [("sid", "a"), ("b", "")] := by decide

/-- Response headers, modelled as the ordered key/value list of a JavaScript
object (`proxyRes.headers` / the headers set on `res`). -/
def Headers := List (String × String)

/-- JavaScript object property write `headers[k] = v`: an existing key is
updated in place, a fresh key is appended. -/
def hset (hs : List (String × String)) (k v : String) : List (String × String) :=
  if hs.any (fun p => p.1 = k) then
    hs.map (fun p => if p.1 = k then (k, v) else p)
  else hs ++ [(k, v)]

/-- JavaScript `delete headers[k]` / `res.removeHeader(k)`. -/
def hdel (hs : List (String × String)) (k : String) : List (String × String) :=
  hs.filter (fun p => p.1 ≠ k)

/-- Header lookup: the value stored under the first matching key. -/
def hget : List (String × String) → String → Option String
  | [], _ => none
  | p :: t, k => if p.1 = k then some p.2 else hget t k

/-- Gateway-side mutable state touched by the 401/403 reaction: the shared
session, the shared progress record, and whether a background `authenticate()`
has been started (the detached call whose promise is not awaited). -/
structure GatewayState where
  session : Session
  prog : AuthProgress
  backgroundAuth : Bool
deriving Repr, DecidableEq

/-- Embedding of the `/v1` route's `onProxyRes` handler (src/src/function.js,
lines 203-241): CORS override, upstream header stripping, caching for static
paths, and on upstream 401/403 the session is cleared (`lastAuthTime = 0`,
`cookies = []`), the progress is reset, a background authentication is
started, and the three advisory headers are added. -/
def onProxyResV1 (statusCode : Nat) (headers : List (String × String))
    (origin : Option String) (reqPath : String) (st : GatewayState) :
    List (String × String) × GatewayState :=
  let headers :=
    match origin with
    | some o => hset (hset headers "access-control-allow-origin" o)
        "access-control-allow-credentials" "true"
    | none => hset headers "access-control-allow-origin" "*"
  let headers := hdel (hdel (hdel headers "set-cookie") "server") "x-powered-by"
  let headers :=
    if includesStr reqPath "/years" || includesStr reqPath "/makes" then
      hset headers "cache-control" "public, max-age=86400"
    else headers
  if statusCode = 401 ∨ statusCode = 403 then
    let st : GatewayState :=
      { session := ⟨[], some 0⟩, prog := initialProgress, backgroundAuth := true }
    let headers := hset (hset (hset headers "x-auth-status" "authenticating")
      "x-auth-status-url" "/auth/status") "x-retry-after" "2"
    (headers, st)
  else (headers, st)

/-- Body delivered by the `/api` route's response interceptor: either the
upstream buffer passed through, or the structured "authentication in
progress" JSON substituted on 401/403. -/
inductive ApiBody
  | passthrough (buf : String)
  | authRequired
deriving Repr, DecidableEq

/-- Embedding of the `/api` route's `responseInterceptor` callback
(src/src/function.js, lines 280-337): same CORS/stripping/caching treatment
on the headers of `res`, and on upstream 401/403 the session is cleared, the
progress reset, a background authentication started, and a substituted 401
response is returned carrying the three advisory headers. -/
def apiInterceptor (statusCode : Nat) (headers : List (String × String))
    (origin : Option String) (reqPath : String) (responseBuffer : String)
    (st : GatewayState) :
    List (String × String) × Nat × ApiBody × GatewayState :=
  let headers :=
    match origin with
    | some o => hset (hset headers "access-control-allow-origin" o)
        "access-control-allow-credentials" "true"
    | none => hset headers "access-control-allow-origin" "*"
  let headers := hdel (hdel (hdel headers "set-cookie") "server") "x-powered-by"
  let headers :=
    if includesStr reqPath "/years" || includesStr reqPath "/makes" then
      hset headers "cache-control" "public, max-age=86400"
    else headers
  if statusCode = 401 ∨ statusCode = 403 then
    let st : GatewayState :=
      { session := ⟨[], some 0⟩, prog := initialProgress, backgroundAuth := true }
    let headers := hset headers "Content-Type" "application/json"
    let headers := hset (hset (hset headers "x-auth-status" "authenticating")
      "x-auth-status-url" "/auth/status") "x-retry-after" "2"
    (headers, 401, ApiBody.authRequired, st)
  else (headers, statusCode, ApiBody.passthrough responseBuffer, st)

/-- Outcome of one authentication attempt as observed by its waiters. -/
inductive Outcome
  | ok
  | err (msg : String)
deriving Repr, DecidableEq

/-- State of the single-flight discipline of `AuthManager.authenticate`
(src/unnamed/part_003, lines 216-343): `authPromise` holds the identifier of
the in-flight attempt (`this.authPromise`), `handshakesStarted` counts the
login handshakes ever launched, `waiters` the callers currently awaiting an
attempt, and `results` the outcomes delivered to callers. -/
structure SysState where
  authPromise : Option Nat
  handshakesStarted : Nat
  nextId : Nat
  waiters : List (Nat × Nat)
  results : List (Nat × Outcome)
deriving Repr, DecidableEq

/-- One `authenticate()` call entering the manager.  The check of
`this.authPromise` (line 218) and its assignment (line 232) run with no
intervening suspension point, so under JavaScript's run-to-completion
scheduling the check-and-set is atomic: a caller either joins the in-flight
attempt as a waiter, or (when none is in flight) launches a fresh handshake
and awaits it itself (lines 338-342). -/
def stepCall (s : SysState) (caller : Nat) : SysState :=
  match s.authPromise with
  | some a => { s with waiters := s.waiters ++ [(caller, a)] }
  | none =>
    { s with
      authPromise := some s.nextId
      nextId := s.nextId + 1
      handshakesStarted := s.handshakesStarted + 1
      waiters := s.waiters ++ [(caller, s.nextId)] }

/-- Resolution of the in-flight attempt with outcome `out`: every waiter of
that attempt receives `out` (a resolved promise wakes all its awaiters with
the same value or the same rejection), and the in-progress marker is cleared
by the `finally` block (line 341). -/
def stepResolve (s : SysState) (out : Outcome) : SysState :=
  match s.authPromise with
  | some a =>
    { s with
      authPromise := none
      results := s.results ++ (s.waiters.filter (fun w => w.2 = a)).map (fun w => (w.1, out))
      waiters := s.waiters.filter (fun w => w.2 ≠ a) }
  | none => s

/-- An interleaving of `authenticate()` calls: each caller in the list enters
in turn (any interleaving of N concurrent calls is some such list). -/
def runCalls (s : SysState) (cs : List Nat) : SysState :=
  cs.foldl stepCall s

theorem splitListOn_ne_nil (sep : Char) (l : List Char) : splitListOn sep l ≠ [] := by
  induction l with
  | nil => simp [splitListOn]
  | cons c cs ih =>
    simp only [splitListOn]
    by_cases hc : c = sep
    · simp [hc]
    · simp only [hc, if_false]
      cases h : splitListOn sep cs with
      | nil => simp
      | cons h t => simp

theorem splitListOn_sepFree (sep : Char) (l : List Char) (h : sep ∉ l) :
    splitListOn sep l = [l] := by
  induction l with
  | nil => rfl
  | cons c cs ih =>
    have hc : c ≠ sep := by
      intro he; exact h (he ▸ List.mem_cons_self c cs)
    have hcs : sep ∉ cs := fun hm => h (List.mem_cons_of_mem c hm)
    simp only [splitListOn, hc, if_false, ih hcs]

theorem splitListOn_append_sep (sep : Char) (l1 l2 : List Char) (h : sep ∉ l1) :
    splitListOn sep (l1 ++ sep :: l2) = l1 :: splitListOn sep l2 := by
  induction l1 with
  | nil => simp [splitListOn]
  | cons c cs ih =>
    have hc : c ≠ sep := by
      intro he; exact h (he ▸ List.mem_cons_self c cs)
    have hcs : sep ∉ cs := fun hm => h (List.mem_cons_of_mem c hm)
    rw [List.cons_append]
    simp only [splitListOn, hc, if_false, List.append_eq]
    rw [ih hcs]

theorem splitListOn_cons_ne (sep c : Char) (l : List Char) (h : c ≠ sep)
    (parts : List (List Char)) (hl : splitListOn sep l = parts) :
    splitListOn sep (c :: l) = (c :: parts.headD []) :: parts.tail := by
  cases parts with
  | nil => exact absurd hl (splitListOn_ne_nil sep l)
  | cons p ps => simp only [splitListOn, h, if_false, hl, List.headD, List.tail]

theorem splitFirstEq_append (a b : List Char) (h : '=' ∉ a) :
    splitFirstEq (a ++ '=' :: b) = (a, b) := by
  induction a with
  | nil => simp [splitFirstEq]
  | cons c cs ih =>
    have hc : c ≠ '=' := by
      intro he; exact h (he ▸ List.mem_cons_self c cs)
    have hcs : '=' ∉ cs := fun hm => h (List.mem_cons_of_mem c hm)
    rw [List.cons_append]
    simp only [splitFirstEq, hc, if_false, List.append_eq]
    rw [ih hcs]

theorem trimChars_cons_space (l : List Char) : trimChars (' ' :: l) = trimChars l := by
  simp [trimChars, trimLeftChars, List.dropWhile, isWsChar]

theorem hget_map_update_ne (t : List (String × String)) (k v k2 : String) (h : k2 ≠ k) :
    hget (t.map (fun p => if p.1 = k then (k, v) else p)) k2 = hget t k2 := by
  induction t with
  | nil => rfl
  | cons a t ih =>
    by_cases ha : a.1 = k
    · have hk : ¬(k = k2) := Ne.symm h
      have hk2 : ¬(a.1 = k2) := by rw [ha]; exact Ne.symm h
      simp only [List.map_cons, ha, if_true, hget]
      rw [if_neg hk, if_neg hk]
      exact ih
    · simp only [List.map_cons, ha, if_false, hget]
      by_cases ha2 : a.1 = k2
      · rw [if_pos ha2, if_pos ha2]
      · rw [if_neg ha2, if_neg ha2, ih]

theorem hget_map_update_self (t : List (String × String)) (k v : String)
    (h : t.any (fun p => p.1 = k) = true) :
    hget (t.map (fun p => if p.1 = k then (k, v) else p)) k = some v := by
  induction t with
  | nil => simp at h
  | cons a t ih =>
    by_cases ha : a.1 = k
    · simp only [List.map_cons, ha, if_true, hget]
    · simp only [List.any_cons, Bool.or_eq_true, decide_eq_true_eq] at h
      rcases h with h | h
      · exact absurd h ha
      · simp only [List.map_cons, ha, if_false, hget, ih h]

theorem hget_append_single_ne (hs : List (String × String)) (k v k2 : String) (h : k2 ≠ k) :
    hget (hs ++ [(k, v)]) k2 = hget hs k2 := by
  induction hs with
  | nil => simp [hget, Ne.symm h]
  | cons a t ih =>
    by_cases ha : a.1 = k2
    · simp only [List.cons_append, hget, ha, if_true]
    · simp only [List.cons_append, hget, ha, if_false, List.append_eq]
      exact ih

theorem hget_append_single_self (hs : List (String × String)) (k v : String)
    (h : hs.any (fun p => p.1 = k) = false) :
    hget (hs ++ [(k, v)]) k = some v := by
  induction hs with
  | nil => simp [hget]
  | cons a t ih =>
    simp only [List.any_cons, Bool.or_eq_false_iff, decide_eq_false_iff_not] at h
    simp only [List.cons_append, hget, h.1, if_false]
    exact ih (by simp [h.2])

theorem hget_hset_self (hs : List (String × String)) (k v : String) :
    hget (hset hs k v) k = some v := by
  unfold hset
  by_cases h : hs.any (fun p => p.1 = k) = true
  · rw [if_pos h]; exact hget_map_update_self hs k v h
  · have h2 : hs.any (fun p => p.1 = k) = false := by
      simpa only [Bool.not_eq_true] using h
    rw [h2]
    simp only [Bool.false_eq_true, if_false]
    exact hget_append_single_self hs k v h2

theorem hget_hset_ne (hs : List (String × String)) (k v k2 : String) (h : k2 ≠ k) :
    hget (hset hs k v) k2 = hget hs k2 := by
  unfold hset
  by_cases hany : hs.any (fun p => p.1 = k) = true
  · rw [if_pos hany]; exact hget_map_update_ne hs k v k2 h
  · have h2 : hs.any (fun p => p.1 = k) = false := by
      simpa only [Bool.not_eq_true] using hany
    rw [h2]
    simp only [Bool.false_eq_true, if_false]
    exact hget_append_single_ne hs k v k2 h

theorem mk_ne_empty (l : List Char) (h : l ≠ []) : String.mk l ≠ "" := by
  intro he
  apply h
  have hd := congrArg String.data he
  simpa using hd

theorem not_mem_append_chars {a : Char} {l1 l2 : List Char} (h1 : a ∉ l1) (h2 : a ∉ l2) :
    a ∉ l1 ++ l2 := by
  intro hm
  rcases List.mem_append.mp hm with hm | hm
  · exact h1 hm
  · exact h2 hm

theorem not_mem_cons_chars {a c : Char} {l : List Char} (h1 : a ≠ c) (h2 : a ∉ l) :
    a ∉ c :: l := by
  intro hm
  rcases List.mem_cons.mp hm with hm | hm
  · exact h1 hm
  · exact h2 hm

/-- C5: `isSessionValid` is a pure function of `(cookies, timestamp, now)`; it
returns `true` exactly when the cookie list is non-empty, the timestamp is
present and non-zero, and `now - timestamp < maxSessionAge` — hence `false`
whenever the cookies are empty, the timestamp is absent or zero, or the age
reaches `maxSessionAge` (24 hours). -/
theorem isSessionValid_characterization (cookies : List Cookie) (ts : Option Int) (now : Int) :
    isSessionValid cookies ts now = true ↔
      cookies ≠ [] ∧ ∃ t : Int, ts = some t ∧ t ≠ 0 ∧ now - t < maxSessionAge := by
  cases ts with
  | none => simp [isSessionValid, timeFalsy]
  | some t =>
    by_cases hc : cookies = []
    · simp [isSessionValid, hc]
    · by_cases ht : t = 0
      · simp [isSessionValid, timeFalsy, ht, hc]
      · have hlen : ¬(cookies.length = 0) := by
          simpa [List.length_eq_zero] using hc
        simp [isSessionValid, timeFalsy, ht, hc, hlen]

/-- C9: `invalidateSession` is idempotent — applying it twice yields the same
end state as applying it once, namely empty cookies, zero `lastAuthTime`, and
no durable store record. -/
theorem invalidateSession_idempotent (sess : Session) (store : Option StoreRecord) :
    invalidateSession (invalidateSession sess store).1 (invalidateSession sess store).2
        = invalidateSession sess store ∧
      invalidateSession sess store = (⟨[], some 0⟩, none) :=
  ⟨rfl, rfl⟩

/-- C4: on an upstream 401 or 403 both proxy response handlers clear the
in-memory session (`lastAuthTime = 0`, empty cookies), reset the progress
record, start a background authentication without awaiting it, and the
response delivered to the caller carries the advisory headers
`x-auth-status: authenticating`, `x-auth-status-url: /auth/status` and
`x-retry-after: 2` (the `/api` interceptor additionally substitutes a 401
"authentication required" response). -/
theorem upstream_expiry_reaction (sc : Nat) (headers : List (String × String))
    (origin : Option String) (reqPath buf : String) (st : GatewayState)
    (h : sc = 401 ∨ sc = 403) :
    (onProxyResV1 sc headers origin reqPath st).2
        = ⟨⟨[], some 0⟩, initialProgress, true⟩ ∧
    hget (onProxyResV1 sc headers origin reqPath st).1 "x-auth-status"
        = some "authenticating" ∧
    hget (onProxyResV1 sc headers origin reqPath st).1 "x-auth-status-url"
        = some "/auth/status" ∧
    hget (onProxyResV1 sc headers origin reqPath st).1 "x-retry-after" = some "2" ∧
    (apiInterceptor sc headers origin reqPath buf st).2.2.2
        = ⟨⟨[], some 0⟩, initialProgress, true⟩ ∧
    (apiInterceptor sc headers origin reqPath buf st).2.1 = 401 ∧
    hget (apiInterceptor sc headers origin reqPath buf st).1 "x-auth-status"
        = some "authenticating" ∧
    hget (apiInterceptor sc headers origin reqPath buf st).1 "x-auth-status-url"
        = some "/auth/status" ∧
    hget (apiInterceptor sc headers origin reqPath buf st).1 "x-retry-after" = some "2" := by
  have adv1 : ∀ H : List (String × String),
      hget (hset (hset (hset H "x-auth-status" "authenticating")
        "x-auth-status-url" "/auth/status") "x-retry-after" "2") "x-auth-status"
        = some "authenticating" := by
    intro H
    rw [hget_hset_ne _ _ _ _ (by decide), hget_hset_ne _ _ _ _ (by decide), hget_hset_self]
  have adv2 : ∀ H : List (String × String),
      hget (hset (hset (hset H "x-auth-status" "authenticating")
        "x-auth-status-url" "/auth/status") "x-retry-after" "2") "x-auth-status-url"
        = some "/auth/status" := by
    intro H
    rw [hget_hset_ne _ _ _ _ (by decide), hget_hset_self]
  have adv3 : ∀ H : List (String × String),
      hget (hset (hset (hset H "x-auth-status" "authenticating")
        "x-auth-status-url" "/auth/status") "x-retry-after" "2") "x-retry-after"
        = some "2" := by
    intro H
    rw [hget_hset_self]
  refine ⟨?_, ?_, ?_, ?_, ?_, ?_, ?_, ?_, ?_⟩ <;>
    simp only [onProxyResV1, apiInterceptor] <;>
    rw [if_pos h] <;>
    first
      | rfl
      | exact adv1 _
      | exact adv2 _
      | exact adv3 _

theorem upstream_expiry_reaction_witness :
    (401 = 401 ∨ 401 = 403) ∧
    (onProxyResV1 401 [("server", "nginx")] (some "https://app.example") "/api/years"
        ⟨⟨[⟨"sid", "a", "motor.com"⟩], some 5⟩, initialProgress, false⟩).2
      = ⟨⟨[], some 0⟩, initialProgress, true⟩ ∧
    hget (apiInterceptor 401 [("server", "nginx")] (some "https://app.example") "/api/years"
        "body" ⟨⟨[⟨"sid", "a", "motor.com"⟩], some 5⟩, initialProgress, false⟩).1
        "x-auth-status" = some "authenticating" :=
  ⟨Or.inl rfl,
    (upstream_expiry_reaction 401 [("server", "nginx")] (some "https://app.example")
      "/api/years" "body" ⟨⟨[⟨"sid", "a", "motor.com"⟩], some 5⟩, initialProgress, false⟩
      (Or.inl rfl)).1,
    (upstream_expiry_reaction 401 [("server", "nginx")] (some "https://app.example")
      "/api/years" "body" ⟨⟨[⟨"sid", "a", "motor.com"⟩], some 5⟩, initialProgress, false⟩
      (Or.inl rfl)).2.2.2.2.2.2.1⟩

theorem runCalls_inflight (cs : List Nat) (s : SysState) (a : Nat)
    (hs : s.authPromise = some a) :
    (runCalls s cs).authPromise = some a ∧
    (runCalls s cs).handshakesStarted = s.handshakesStarted ∧
    (∀ w, w ∈ s.waiters → w ∈ (runCalls s cs).waiters) ∧
    (∀ c, c ∈ cs → (c, a) ∈ (runCalls s cs).waiters) := by
  induction cs generalizing s with
  | nil =>
    refine ⟨hs, rfl, fun w hw => hw, ?_⟩
    intro c hc
    simp at hc
  | cons x xs ih =>
    have hstep : stepCall s x = { s with waiters := s.waiters ++ [(x, a)] } := by
      unfold stepCall
      rw [hs]
    have hs2 : (stepCall s x).authPromise = some a := by rw [hstep]; exact hs
    have hrun : runCalls s (x :: xs) = runCalls (stepCall s x) xs := rfl
    obtain ⟨h1, h2, h3, h4⟩ := ih (stepCall s x) hs2
    refine ⟨by rw [hrun]; exact h1, ?_, ?_, ?_⟩
    · rw [hrun, h2, hstep]
    · intro w hw
      rw [hrun]
      apply h3
      rw [hstep]
      exact List.mem_append.mpr (Or.inl hw)
    · intro c hc
      rw [hrun]
      rcases List.mem_cons.mp hc with hc | hc
      · apply h3
        rw [hstep]
        refine List.mem_append.mpr (Or.inr ?_)
        rw [hc]
        exact List.mem_singleton.mpr rfl
      · exact h4 c hc

/-- C1: single-flight authentication.  From any state with an attempt `a` in
flight, any interleaving of `authenticate()` calls starts no second handshake
and leaves `a` in flight; resolving the attempt then delivers its outcome to
every one of those callers and clears the in-progress marker, after which a
subsequent call launches a fresh handshake. -/
theorem authenticate_single_flight (s : SysState) (a : Nat) (cs : List Nat)
    (out : Outcome) (c c2 : Nat) (hs : s.authPromise = some a) (hc : c ∈ cs) :
    (runCalls s cs).handshakesStarted = s.handshakesStarted ∧
    (runCalls s cs).authPromise = some a ∧
    (c, out) ∈ (stepResolve (runCalls s cs) out).results ∧
    (stepResolve (runCalls s cs) out).authPromise = none ∧
    (stepCall (stepResolve (runCalls s cs) out) c2).handshakesStarted
      = s.handshakesStarted + 1 := by
  obtain ⟨h1, h2, _h3, h4⟩ := runCalls_inflight cs s a hs
  have hres : stepResolve (runCalls s cs) out =
      { runCalls s cs with
        authPromise := none
        results := (runCalls s cs).results ++
          (((runCalls s cs).waiters.filter (fun w => w.2 = a)).map (fun w => (w.1, out)))
        waiters := (runCalls s cs).waiters.filter (fun w => w.2 ≠ a) } := by
    unfold stepResolve
    rw [h1]
  refine ⟨h2, h1, ?_, ?_, ?_⟩
  · rw [hres]
    refine List.mem_append.mpr (Or.inr ?_)
    refine List.mem_map.mpr ⟨(c, a), ?_, rfl⟩
    refine List.mem_filter.mpr ⟨h4 c hc, by simp⟩
  · rw [hres]
  · have hnone : (stepResolve (runCalls s cs) out).authPromise = none := by rw [hres]
    have hh : (stepResolve (runCalls s cs) out).handshakesStarted
        = s.handshakesStarted := by rw [hres]; exact h2
    unfold stepCall
    rw [hnone, ← hh]

theorem authenticate_single_flight_witness :
    (⟨some 0, 1, 1, [], []⟩ : SysState).authPromise = some 0 ∧ (2 ∈ [1, 2, 3]) ∧
    (runCalls ⟨some 0, 1, 1, [], []⟩ [1, 2, 3]).handshakesStarted = 1 ∧
    (2, Outcome.err "nope")
      ∈ (stepResolve (runCalls ⟨some 0, 1, 1, [], []⟩ [1, 2, 3]) (Outcome.err "nope")).results ∧
    (stepCall (stepResolve (runCalls ⟨some 0, 1, 1, [], []⟩ [1, 2, 3]) (Outcome.err "nope"))
      7).handshakesStarted = 2 :=
  ⟨rfl, by decide,
    (authenticate_single_flight ⟨some 0, 1, 1, [], []⟩ 0 [1, 2, 3] (Outcome.err "nope") 2 7
      rfl (by decide)).1,
    (authenticate_single_flight ⟨some 0, 1, 1, [], []⟩ 0 [1, 2, 3] (Outcome.err "nope") 2 7
      rfl (by decide)).2.2.1,
    (authenticate_single_flight ⟨some 0, 1, 1, [], []⟩ 0 [1, 2, 3] (Outcome.err "nope") 2 7
      rfl (by decide)).2.2.2.2⟩

theorem authFinish_err_eq (lo : LoopOut) (now : Int) (sess : Session)
    (store : Option StoreRecord) : (authFinish lo now sess store).err = lo.err := by
  cases hlo : lo.err <;> simp [authFinish, hlo]

theorem authFinish_requests_eq (lo : LoopOut) (now : Int) (sess : Session)
    (store : Option StoreRecord) : (authFinish lo now sess store).requests = lo.requests := by
  cases hlo : lo.err <;> simp [authFinish, hlo]

theorem authFinish_jar_eq (lo : LoopOut) (now : Int) (sess : Session)
    (store : Option StoreRecord) : (authFinish lo now sess store).jar = lo.jar := by
  cases hlo : lo.err <;> simp [authFinish, hlo]

theorem authFinish_fail (lo : LoopOut) (now : Int) (sess : Session)
    (store : Option StoreRecord) (e : String)
    (h : (authFinish lo now sess store).err = some e) :
    (authFinish lo now sess store).session = sess ∧
    (authFinish lo now sess store).store = store ∧
    (authFinish lo now sess store).prog.status = "error" ∧
    (authFinish lo now sess store).prog.error = some e ∧
    (authFinish lo now sess store).prog.message
      = some ("Authentication failed: " ++ e) := by
  cases hlo : lo.err with
  | none => rw [authFinish_err_eq, hlo] at h; exact absurd h (by simp)
  | some e2 =>
    have he : e2 = e := by
      rw [authFinish_err_eq, hlo] at h
      exact Option.some.inj h
    subst he
    refine ⟨?_, ?_, ?_, ?_, ?_⟩ <;> simp [authFinish, hlo, updateProgress]

theorem authFinish_ok (lo : LoopOut) (now : Int) (sess : Session)
    (store : Option StoreRecord) (h : (authFinish lo now sess store).err = none) :
    (authFinish lo now sess store).session.cookies = extractSessionCookies lo.jar ∧
    (authFinish lo now sess store).session.lastAuthTime = some now ∧
    (authFinish lo now sess store).prog.status = "success" ∧
    (authFinish lo now sess store).store
      = some ⟨extractSessionCookies lo.jar, some now⟩ := by
  cases hlo : lo.err with
  | some e2 => rw [authFinish_err_eq, hlo] at h; exact absurd h (by simp)
  | none =>
    refine ⟨?_, ?_, ?_, ?_⟩ <;> simp [authFinish, hlo, updateProgress]

/-- C3: failure atomicity of an authentication attempt — when the attempt
fails with error `e` the previously held session and the durable store are
unchanged, the progress record is set to status `error` carrying the failure
message (`Authentication failed: e`) and the error itself, and resolving the
in-flight attempt with that error delivers it to every registered waiter. -/
theorem authenticate_failure_atomic (script : List (Except String HttpResponse)) (now : Int)
    (sess : Session) (prog : AuthProgress) (store : Option StoreRecord) (e : String)
    (s : SysState) (a c : Nat)
    (hfail : (authAttempt script now sess prog store).err = some e)
    (hs : s.authPromise = some a) (hc : (c, a) ∈ s.waiters) :
    (authAttempt script now sess prog store).session = sess ∧
    (authAttempt script now sess prog store).store = store ∧
    (authAttempt script now sess prog store).prog.status = "error" ∧
    (authAttempt script now sess prog store).prog.error = some e ∧
    (authAttempt script now sess prog store).prog.message
      = some ("Authentication failed: " ++ e) ∧
    (c, Outcome.err e) ∈ (stepResolve s (Outcome.err e)).results := by
  unfold authAttempt at hfail ⊢
  obtain ⟨h1, h2, h3, h4, h5⟩ := authFinish_fail _ now sess store e hfail
  refine ⟨h1, h2, h3, h4, h5, ?_⟩
  unfold stepResolve
  rw [hs]
  refine List.mem_append.mpr (Or.inr ?_)
  refine List.mem_map.mpr ⟨(c, a), ?_, rfl⟩
  exact List.mem_filter.mpr ⟨hc, by simp⟩

theorem authenticate_failure_atomic_witness :
    (authAttempt [Except.error "socket hang up"] 77
        ⟨[⟨"old", "1", "motor.com"⟩], some 5⟩ initialProgress
        (some ⟨[⟨"old", "1", "motor.com"⟩], some 5⟩)).err = some "socket hang up" ∧
    (authAttempt [Except.error "socket hang up"] 77
        ⟨[⟨"old", "1", "motor.com"⟩], some 5⟩ initialProgress
        (some ⟨[⟨"old", "1", "motor.com"⟩], some 5⟩)).session
      = ⟨[⟨"old", "1", "motor.com"⟩], some 5⟩ ∧
    (authAttempt [Except.error "socket hang up"] 77
        ⟨[⟨"old", "1", "motor.com"⟩], some 5⟩ initialProgress
        (some ⟨[⟨"old", "1", "motor.com"⟩], some 5⟩)).prog.status = "error" ∧
    (4, Outcome.err "socket hang up")
      ∈ (stepResolve ⟨some 9, 3, 10, [(4, 9)], []⟩ (Outcome.err "socket hang up")).results :=
  ⟨by decide,
    (authenticate_failure_atomic [Except.error "socket hang up"] 77
      ⟨[⟨"old", "1", "motor.com"⟩], some 5⟩ initialProgress
      (some ⟨[⟨"old", "1", "motor.com"⟩], some 5⟩) "socket hang up"
      ⟨some 9, 3, 10, [(4, 9)], []⟩ 9 4 (by decide) rfl (by decide)).1,
    (authenticate_failure_atomic [Except.error "socket hang up"] 77
      ⟨[⟨"old", "1", "motor.com"⟩], some 5⟩ initialProgress
      (some ⟨[⟨"old", "1", "motor.com"⟩], some 5⟩) "socket hang up"
      ⟨some 9, 3, 10, [(4, 9)], []⟩ 9 4 (by decide) rfl (by decide)).2.2.1,
    (authenticate_failure_atomic [Except.error "socket hang up"] 77
      ⟨[⟨"old", "1", "motor.com"⟩], some 5⟩ initialProgress
      (some ⟨[⟨"old", "1", "motor.com"⟩], some 5⟩) "socket hang up"
      ⟨some 9, 3, 10, [(4, 9)], []⟩ 9 4 (by decide) rfl (by decide)).2.2.2.2.2⟩

/-- C7: cookie extraction policy — for every attempt that terminates normally,
the session receives exactly the jar's cookies whose domain contains
`motor.com`, unless that filter is empty, in which case it receives every
cookie the jar collected. -/
theorem cookie_extraction_policy (script : List (Except String HttpResponse)) (now : Int)
    (sess : Session) (prog : AuthProgress) (store : Option StoreRecord)
    (hok : (authAttempt script now sess prog store).err = none) :
    ((authAttempt script now sess prog store).jar.filter
          (fun c => includesStr c.domain "motor.com") ≠ [] →
      (authAttempt script now sess prog store).session.cookies
        = (authAttempt script now sess prog store).jar.filter
            (fun c => includesStr c.domain "motor.com")) ∧
    ((authAttempt script now sess prog store).jar.filter
          (fun c => includesStr c.domain "motor.com") = [] →
      (authAttempt script now sess prog store).session.cookies
        = (authAttempt script now sess prog store).jar) := by
  unfold authAttempt at hok ⊢
  obtain ⟨h1, _, _, _⟩ := authFinish_ok _ now sess store hok
  rw [authFinish_jar_eq, h1]
  unfold extractSessionCookies
  constructor
  · intro hne
    rw [if_neg (by simpa [List.isEmpty_iff] using hne)]
  · intro he
    rw [if_pos (by simpa [List.isEmpty_iff] using he)]

theorem cookie_extraction_policy_witness :
    (authAttempt [Except.ok ⟨200, none, ["a=1"]⟩] 5 ⟨[], none⟩ initialProgress none).err
      = none ∧
    (authAttempt [Except.ok ⟨200, none, ["a=1"]⟩] 5 ⟨[], none⟩ initialProgress none).jar.filter
      (fun c => includesStr c.domain "motor.com") = [] ∧
    (authAttempt [Except.ok ⟨200, none, ["a=1"]⟩] 5 ⟨[], none⟩ initialProgress none).session.cookies
      = (authAttempt [Except.ok ⟨200, none, ["a=1"]⟩] 5 ⟨[], none⟩ initialProgress none).jar :=
  ⟨by decide, by decide,
    (cookie_extraction_policy [Except.ok ⟨200, none, ["a=1"]⟩] 5 ⟨[], none⟩ initialProgress none
      (by decide)).2 (by decide)⟩

/-- A scripted response that the loop follows as a redirect: a delivered
response with a 3xx status and a `Location` header. -/
def isOkRedirect (en : Except String HttpResponse) : Prop :=
  ∃ r, en = Except.ok r ∧ 300 ≤ r.statusCode ∧ r.statusCode < 400 ∧ r.location.isSome

theorem loopIter_redirects (fuel : Nat) :
    ∀ (script : List (Except String HttpResponse)) (url : String) (jar : List Cookie)
      (rc : Nat) (reqs : List String) (prog : AuthProgress) (now : Int),
    rc + fuel = maxRedirects →
    (∀ en ∈ script.take fuel, isOkRedirect en) →
    fuel ≤ script.length →
    (loopIter script url jar rc reqs prog now).err = none ∧
    (loopIter script url jar rc reqs prog now).requests.length = reqs.length + fuel := by
  induction fuel with
  | zero =>
    intro script url jar rc reqs prog now hrc _hall _hlen
    have hstop : ¬(rc < maxRedirects) := by omega
    rw [loopIter.eq_def, if_neg hstop]
    exact ⟨rfl, by simp⟩
  | succ f ih =>
    intro script url jar rc reqs prog now hrc hall hlen
    have hrc2 : rc < maxRedirects := by omega
    cases script with
    | nil => simp at hlen
    | cons en rest =>
      have hred : isOkRedirect en := by
        apply hall
        simp [List.take]
      obtain ⟨r, hen, h3a, h3b, hloc⟩ := hred
      obtain ⟨loc, hloc⟩ := Option.isSome_iff_exists.mp hloc
      subst hen
      rw [loopIter.eq_def, if_pos hrc2]
      simp only
      rw [if_pos ⟨h3a, h3b⟩, hloc]
      have hall2 : ∀ en2 ∈ rest.take f, isOkRedirect en2 := by
        intro en2 hm
        apply hall
        simp [List.take, hm]
      have hlen2 : f ≤ rest.length := by
        simp at hlen
        omega
      obtain ⟨g1, g2⟩ := ih rest (resolveUrl loc url) _ (rc + 1) (reqs ++ [url]) _ now
        (by omega) hall2 hlen2
      refine ⟨g1, ?_⟩
      rw [g2]
      simp
      omega

/-- C2 counterexample: with a scripted chain of eleven redirect responses the
attempt does NOT fail with a redirect-limit error — it terminates with no
error — and the prior in-memory session is NOT left unmodified: it is
overwritten with the cookies collected along the chain and a fresh timestamp. -/
theorem redirect_limit_cex :
    (authAttempt
        (List.replicate 11 (Except.ok ⟨302, some "https://hop.example.org/next", ["sid=abc"]⟩))
        1000 ⟨[⟨"old", "1", "motor.com"⟩], some 5⟩ initialProgress none).err = none ∧
    (authAttempt
        (List.replicate 11 (Except.ok ⟨302, some "https://hop.example.org/next", ["sid=abc"]⟩))
        1000 ⟨[⟨"old", "1", "motor.com"⟩], some 5⟩ initialProgress none).session
      ≠ ⟨[⟨"old", "1", "motor.com"⟩], some 5⟩ ∧
    (authAttempt
        (List.replicate 11 (Except.ok ⟨302, some "https://hop.example.org/next", ["sid=abc"]⟩))
        1000 ⟨[⟨"old", "1", "motor.com"⟩], some 5⟩ initialProgress none).requests.length
      = 10 := by
  refine ⟨by decide, by decide, by decide⟩

/-- C2 amended: for every scripted chain whose first ten responses are
followed redirects (so the chain is longer than the bound of 10), the
redirect loop exits through its guard after issuing exactly ten requests;
no "redirect limit exceeded" error is raised — the attempt completes
normally and overwrites the session with the cookies extracted from the jar
and a fresh timestamp. -/
theorem redirect_limit_amended (script : List (Except String HttpResponse)) (now : Int)
    (sess : Session) (prog : AuthProgress) (store : Option StoreRecord)
    (hall : ∀ en ∈ script.take 10, isOkRedirect en)
    (hlen : 10 ≤ script.length) :
    (authAttempt script now sess prog store).err = none ∧
    (authAttempt script now sess prog store).requests.length = 10 ∧
    (authAttempt script now sess prog store).session.lastAuthTime = some now ∧
    (authAttempt script now sess prog store).session.cookies
      = extractSessionCookies (authAttempt script now sess prog store).jar := by
  unfold authAttempt
  obtain ⟨g1, g2⟩ := loopIter_redirects 10 script ebscoLoginUrl [] 0 []
    (updateProgress
      (updateProgress prog now "authenticating" "init" "Starting authentication..." (some 0))
      now "authenticating" "ebsco_login" "Connecting to EBSCO..." (some 10)) now
    rfl hall hlen
  have herr : (authFinish (loopIter script ebscoLoginUrl [] 0 []
      (updateProgress
        (updateProgress prog now "authenticating" "init" "Starting authentication..." (some 0))
        now "authenticating" "ebsco_login" "Connecting to EBSCO..." (some 10)) now)
      now sess store).err = none := by
    rw [authFinish_err_eq]
    exact g1
  obtain ⟨k1, k2, _, _⟩ := authFinish_ok _ now sess store herr
  refine ⟨herr, ?_, k2, ?_⟩
  · rw [authFinish_requests_eq]
    simpa using g2
  · rw [authFinish_jar_eq]
    exact k1

theorem redirect_limit_amended_witness :
    (∀ en ∈ (List.replicate 12
        (Except.ok (⟨301, some "https://hop2.example.org/x", ["t=1"]⟩ : HttpResponse))).take 10,
      isOkRedirect en) ∧
    (authAttempt
        (List.replicate 12 (Except.ok ⟨301, some "https://hop2.example.org/x", ["t=1"]⟩))
        44 ⟨[], none⟩ initialProgress none).err = none ∧
    (authAttempt
        (List.replicate 12 (Except.ok ⟨301, some "https://hop2.example.org/x", ["t=1"]⟩))
        44 ⟨[], none⟩ initialProgress none).requests.length = 10 :=
  ⟨fun en hm => by
      refine ⟨⟨301, some "https://hop2.example.org/x", ["t=1"]⟩, ?_, by decide, by decide, rfl⟩
      have : en ∈ List.replicate 12
          (Except.ok (⟨301, some "https://hop2.example.org/x", ["t=1"]⟩ : HttpResponse)) :=
        List.mem_of_mem_take hm
      exact List.eq_of_mem_replicate this,
    (redirect_limit_amended
      (List.replicate 12 (Except.ok ⟨301, some "https://hop2.example.org/x", ["t=1"]⟩))
      44 ⟨[], none⟩ initialProgress none
      (fun en hm => by
        refine ⟨⟨301, some "https://hop2.example.org/x", ["t=1"]⟩, ?_, by decide, by decide, rfl⟩
        exact List.eq_of_mem_replicate (List.mem_of_mem_take hm))
      (by decide)).1,
    (redirect_limit_amended
      (List.replicate 12 (Except.ok ⟨301, some "https://hop2.example.org/x", ["t=1"]⟩))
      44 ⟨[], none⟩ initialProgress none
      (fun en hm => by
        refine ⟨⟨301, some "https://hop2.example.org/x", ["t=1"]⟩, ?_, by decide, by decide, rfl⟩
        exact List.eq_of_mem_replicate (List.mem_of_mem_take hm))
      (by decide)).2.1⟩

theorem loopIter_step_redirect (r : HttpResponse) (rest : List (Except String HttpResponse))
    (url loc : String) (jar : List Cookie) (rc : Nat) (reqs : List String)
    (prog : AuthProgress) (now : Int) (hrc : rc < maxRedirects)
    (ha : 300 ≤ r.statusCode) (hb : r.statusCode < 400) (hloc : r.location = some loc) :
    loopIter (Except.ok r :: rest) url jar rc reqs prog now
      = loopIter rest (resolveUrl loc url)
          (r.setCookies.foldl (fun j h => setCookieJar j h (urlHostname url)) jar)
          (rc + 1) (reqs ++ [url])
          (updateProgress prog now "authenticating" "redirecting"
            ("Following redirect " ++ toString (rc + 1) ++ "...")
            (some (min (10 + rc * 15) 70))) now := by
  rw [loopIter.eq_def, if_pos hrc]
  simp only
  rw [if_pos ⟨ha, hb⟩, hloc]

theorem loopIter_step_noloc (r : HttpResponse) (rest : List (Except String HttpResponse))
    (url : String) (jar : List Cookie) (rc : Nat) (reqs : List String)
    (prog : AuthProgress) (now : Int) (hrc : rc < maxRedirects)
    (hloc : r.location = none) :
    loopIter (Except.ok r :: rest) url jar rc reqs prog now
      = motorFinal rest url
          (r.setCookies.foldl (fun j h => setCookieJar j h (urlHostname url)) jar)
          (reqs ++ [url])
          (updateProgress prog now "authenticating" "redirecting"
            ("Following redirect " ++ toString (rc + 1) ++ "...")
            (some (min (10 + rc * 15) 70))) now := by
  rw [loopIter.eq_def, if_pos hrc]
  simp only
  by_cases hcond : 300 ≤ r.statusCode ∧ r.statusCode < 400
  · rw [if_pos hcond, hloc]
  · rw [if_neg hcond]

theorem motorFinal_ok (fr : HttpResponse) (rest : List (Except String HttpResponse))
    (url : String) (jar : List Cookie) (reqs : List String) (prog : AuthProgress)
    (now : Int) (hm : includesStr url "motor.com" = true) :
    motorFinal (Except.ok fr :: rest) url jar reqs prog now
      = ⟨none, fr.setCookies.foldl (fun j h => setCookieJar j h "sites.motor.com") jar,
          reqs ++ [motorUrl],
          updateProgress
            (updateProgress prog now "authenticating" "motor_connect"
              "Connecting to Motor.com..." (some 75))
            now "authenticating" "motor_auth" "Authenticating with Motor.com..."
            (some 85)⟩ := by
  rw [motorFinal.eq_def, if_pos hm]

/-- C6 counterexample: a scripted chain of exactly three redirects whose last
hop lands on the vendor host makes the client issue five requests (the three
redirected requests, the landing request, and the explicit final request to
the vendor entry URL), not four. -/
theorem redirect_chain_request_count_cex :
    (authAttempt
        [Except.ok ⟨302, some "https://h1.example.org/a", ["a=1; path=/"]⟩,
         Except.ok ⟨302, some "https://h2.example.org/b", ["b=2"]⟩,
         Except.ok ⟨302, some "https://sites.motor.com/landing", ["c=3"]⟩,
         Except.ok ⟨200, none, ["MotorSess=xyz"]⟩,
         Except.ok ⟨200, none, ["m1tok=q"]⟩]
        1000 ⟨[], none⟩ initialProgress none).requests
      = [ebscoLoginUrl, "https://h1.example.org/a", "https://h2.example.org/b",
         "https://sites.motor.com/landing", motorUrl] ∧
    ¬((authAttempt
        [Except.ok ⟨302, some "https://h1.example.org/a", ["a=1; path=/"]⟩,
         Except.ok ⟨302, some "https://h2.example.org/b", ["b=2"]⟩,
         Except.ok ⟨302, some "https://sites.motor.com/landing", ["c=3"]⟩,
         Except.ok ⟨200, none, ["MotorSess=xyz"]⟩,
         Except.ok ⟨200, none, ["m1tok=q"]⟩]
        1000 ⟨[], none⟩ initialProgress none).requests.length = 4) := by
  refine ⟨by decide, by decide⟩

/-- C6 amended: for every scripted chain of exactly three redirects whose last
hop lands on the vendor host (and whose landing response carries no further
`Location`), the client issues exactly five requests — the EBSCO entry
request, the three redirect targets, and the explicit final request to the
vendor entry URL — accumulates the `Set-Cookie` headers of every hop into the
jar under the hop's hostname, and the session receives exactly the
vendor-domain cookies whenever at least one cookie whose domain contains
`motor.com` was collected. -/
theorem redirect_chain_amended (u1 u2 u3 : String) (s0 s1 s2 s3 s4 : Nat)
    (c0 c1 c2 c3 c4 : List String) (now : Int) (sess : Session) (prog : AuthProgress)
    (store : Option StoreRecord)
    (h0a : 300 ≤ s0) (h0b : s0 < 400) (h1a : 300 ≤ s1) (h1b : s1 < 400)
    (h2a : 300 ≤ s2) (h2b : s2 < 400)
    (habs1 : startsWithChars "https://".data u1.data = true)
    (habs2 : startsWithChars "https://".data u2.data = true)
    (habs3 : startsWithChars "https://".data u3.data = true)
    (hm3 : includesStr u3 "motor.com" = true) :
    (authAttempt
        [Except.ok ⟨s0, some u1, c0⟩, Except.ok ⟨s1, some u2, c1⟩,
         Except.ok ⟨s2, some u3, c2⟩, Except.ok ⟨s3, none, c3⟩, Except.ok ⟨s4, none, c4⟩]
        now sess prog store).err = none ∧
    (authAttempt
        [Except.ok ⟨s0, some u1, c0⟩, Except.ok ⟨s1, some u2, c1⟩,
         Except.ok ⟨s2, some u3, c2⟩, Except.ok ⟨s3, none, c3⟩, Except.ok ⟨s4, none, c4⟩]
        now sess prog store).requests = [ebscoLoginUrl, u1, u2, u3, motorUrl] ∧
    (authAttempt
        [Except.ok ⟨s0, some u1, c0⟩, Except.ok ⟨s1, some u2, c1⟩,
         Except.ok ⟨s2, some u3, c2⟩, Except.ok ⟨s3, none, c3⟩, Except.ok ⟨s4, none, c4⟩]
        now sess prog store).jar
      = c4.foldl (fun j h => setCookieJar j h "sites.motor.com")
          (c3.foldl (fun j h => setCookieJar j h (urlHostname u3))
            (c2.foldl (fun j h => setCookieJar j h (urlHostname u2))
              (c1.foldl (fun j h => setCookieJar j h (urlHostname u1))
                (c0.foldl (fun j h => setCookieJar j h (urlHostname ebscoLoginUrl)) [])))) ∧
    ((authAttempt
        [Except.ok ⟨s0, some u1, c0⟩, Except.ok ⟨s1, some u2, c1⟩,
         Except.ok ⟨s2, some u3, c2⟩, Except.ok ⟨s3, none, c3⟩, Except.ok ⟨s4, none, c4⟩]
        now sess prog store).jar.filter (fun c => includesStr c.domain "motor.com") ≠ [] →
      (authAttempt
        [Except.ok ⟨s0, some u1, c0⟩, Except.ok ⟨s1, some u2, c1⟩,
         Except.ok ⟨s2, some u3, c2⟩, Except.ok ⟨s3, none, c3⟩, Except.ok ⟨s4, none, c4⟩]
        now sess prog store).session.cookies
        = (authAttempt
            [Except.ok ⟨s0, some u1, c0⟩, Except.ok ⟨s1, some u2, c1⟩,
             Except.ok ⟨s2, some u3, c2⟩, Except.ok ⟨s3, none, c3⟩, Except.ok ⟨s4, none, c4⟩]
            now sess prog store).jar.filter (fun c => includesStr c.domain "motor.com")) := by
  have e1 : resolveUrl u1 ebscoLoginUrl = u1 := by
    rw [resolveUrl, if_pos]
    rw [habs1, Bool.or_true]
  have e2 : resolveUrl u2 u1 = u2 := by
    rw [resolveUrl, if_pos]
    rw [habs2, Bool.or_true]
  have e3 : resolveUrl u3 u2 = u3 := by
    rw [resolveUrl, if_pos]
    rw [habs3, Bool.or_true]
  have hloop : ∀ p : AuthProgress,
      (loopIter
        [Except.ok ⟨s0, some u1, c0⟩, Except.ok ⟨s1, some u2, c1⟩,
         Except.ok ⟨s2, some u3, c2⟩, Except.ok ⟨s3, none, c3⟩, Except.ok ⟨s4, none, c4⟩]
        ebscoLoginUrl [] 0 [] p now).err = none ∧
      (loopIter
        [Except.ok ⟨s0, some u1, c0⟩, Except.ok ⟨s1, some u2, c1⟩,
         Except.ok ⟨s2, some u3, c2⟩, Except.ok ⟨s3, none, c3⟩, Except.ok ⟨s4, none, c4⟩]
        ebscoLoginUrl [] 0 [] p now).requests = [ebscoLoginUrl, u1, u2, u3, motorUrl] ∧
      (loopIter
        [Except.ok ⟨s0, some u1, c0⟩, Except.ok ⟨s1, some u2, c1⟩,
         Except.ok ⟨s2, some u3, c2⟩, Except.ok ⟨s3, none, c3⟩, Except.ok ⟨s4, none, c4⟩]
        ebscoLoginUrl [] 0 [] p now).jar
        = c4.foldl (fun j h => setCookieJar j h "sites.motor.com")
            (c3.foldl (fun j h => setCookieJar j h (urlHostname u3))
              (c2.foldl (fun j h => setCookieJar j h (urlHostname u2))
                (c1.foldl (fun j h => setCookieJar j h (urlHostname u1))
                  (c0.foldl (fun j h => setCookieJar j h (urlHostname ebscoLoginUrl)) [])))) := by
    intro p
    rw [loopIter_step_redirect _ _ _ _ _ _ _ _ _ (by decide) h0a h0b rfl, e1]
    rw [loopIter_step_redirect _ _ _ _ _ _ _ _ _ (by decide) h1a h1b rfl, e2]
    rw [loopIter_step_redirect _ _ _ _ _ _ _ _ _ (by decide) h2a h2b rfl, e3]
    rw [loopIter_step_noloc _ _ _ _ _ _ _ _ (by decide) rfl]
    rw [motorFinal_ok _ _ _ _ _ _ _ hm3]
    refine ⟨rfl, by simp, rfl⟩
  unfold authAttempt
  obtain ⟨l1, l2, l3⟩ := hloop
    (updateProgress
      (updateProgress prog now "authenticating" "init" "Starting authentication..." (some 0))
      now "authenticating" "ebsco_login" "Connecting to EBSCO..." (some 10))
  have herr : (authFinish
      (loopIter
        [Except.ok ⟨s0, some u1, c0⟩, Except.ok ⟨s1, some u2, c1⟩,
         Except.ok ⟨s2, some u3, c2⟩, Except.ok ⟨s3, none, c3⟩, Except.ok ⟨s4, none, c4⟩]
        ebscoLoginUrl [] 0 []
        (updateProgress
          (updateProgress prog now "authenticating" "init" "Starting authentication..." (some 0))
          now "authenticating" "ebsco_login" "Connecting to EBSCO..." (some 10)) now)
      now sess store).err = none := by
    rw [authFinish_err_eq]
    exact l1
  refine ⟨herr, ?_, ?_, ?_⟩
  · rw [authFinish_requests_eq]
    exact l2
  · rw [authFinish_jar_eq]
    exact l3
  · intro hne
    obtain ⟨k1, _, _, _⟩ := authFinish_ok _ now sess store herr
    rw [authFinish_jar_eq] at hne ⊢
    rw [k1]
    unfold extractSessionCookies
    rw [if_neg (by simpa [List.isEmpty_iff] using hne)]

theorem redirect_chain_amended_witness :
    ((300 : Nat) ≤ 302 ∧ includesStr "https://sites.motor.com/landing" "motor.com" = true) ∧
    (authAttempt
        [Except.ok ⟨302, some "https://h1.example.org/a", ["a=1"]⟩,
         Except.ok ⟨302, some "https://h2.example.org/b", ["b=2"]⟩,
         Except.ok ⟨302, some "https://sites.motor.com/landing", ["c=3"]⟩,
         Except.ok ⟨200, none, ["MotorSess=xyz"]⟩,
         Except.ok ⟨200, none, ["m1tok=q"]⟩]
        1000 ⟨[], none⟩ initialProgress none).requests
      = [ebscoLoginUrl, "https://h1.example.org/a", "https://h2.example.org/b",
         "https://sites.motor.com/landing", motorUrl] :=
  ⟨⟨by decide, by decide⟩,
    (redirect_chain_amended "https://h1.example.org/a" "https://h2.example.org/b"
      "https://sites.motor.com/landing" 302 302 302 200 200
      ["a=1"] ["b=2"] ["c=3"] ["MotorSess=xyz"] ["m1tok=q"] 1000 ⟨[], none⟩
      initialProgress none
      (by decide) (by decide) (by decide) (by decide) (by decide) (by decide)
      (by decide) (by decide) (by decide) (by decide)).2.1⟩

/-- A cookie whose name and value survive the `name=value; name=value` header
serialization: no `';'` in either, no `'='` in the name, and the serialized
attribute is stable under trimming (no edge whitespace). Every cookie the
`CookieJar` parser stores satisfies this shape. -/
def wfCookie (c : Cookie) : Prop :=
  ';' ∉ c.name.data ∧ ';' ∉ c.value.data ∧ '=' ∉ c.name.data ∧
  trimChars (c.name.data ++ '=' :: c.value.data) = c.name.data ++ '=' :: c.value.data

theorem serial_data (c : Cookie) :
    (c.name ++ "=" ++ c.value).data = c.name.data ++ '=' :: c.value.data := by
  rw [String.data_append, String.data_append, List.append_assoc]
  rfl

theorem parse_joinSemi (cookies : List Cookie) (hne : cookies ≠ [])
    (hwf : ∀ c ∈ cookies, wfCookie c) :
    parseCookieHeader (joinSemi (cookies.map (fun c => c.name ++ "=" ++ c.value)))
      = cookies.map (fun c => (c.name, c.value)) := by
  induction cookies with
  | nil => exact absurd rfl hne
  | cons c rest ih =>
    obtain ⟨w1, w2, w3, w4⟩ := hwf c (List.mem_cons_self c rest)
    have hd1 : ';' ∉ c.name.data ++ '=' :: c.value.data := by
      refine not_mem_append_chars w1 (not_mem_cons_chars (by decide) w2)
    have hfrag :
        (String.mk (splitFirstEq (trimChars (c.name.data ++ '=' :: c.value.data))).1,
         String.mk (splitFirstEq (trimChars (c.name.data ++ '=' :: c.value.data))).2)
          = (c.name, c.value) := by
      rw [w4, splitFirstEq_append c.name.data c.value.data w3]
    cases rest with
    | nil =>
      simp only [List.map_cons, List.map_nil, joinSemi, parseCookieHeader]
      rw [serial_data c, splitListOn_sepFree ';' _ hd1]
      simp only [List.map_cons, List.map_nil]
      rw [hfrag]
    | cons c2 rest2 =>
      have hih := ih (by simp) (fun x hx => hwf x (List.mem_cons_of_mem c hx))
      have hjoin : joinSemi ((c :: c2 :: rest2).map (fun c => c.name ++ "=" ++ c.value))
          = (c.name ++ "=" ++ c.value) ++ "; "
            ++ joinSemi ((c2 :: rest2).map (fun c => c.name ++ "=" ++ c.value)) := by
        simp only [List.map_cons, joinSemi]
      have hdata : (joinSemi ((c :: c2 :: rest2).map (fun c => c.name ++ "=" ++ c.value))).data
          = (c.name.data ++ '=' :: c.value.data) ++ ';' :: ' '
            :: (joinSemi ((c2 :: rest2).map (fun c => c.name ++ "=" ++ c.value))).data := by
        rw [hjoin, String.data_append, String.data_append, serial_data c]
        simp
      obtain ⟨h0, t0, hsplit⟩ :
          ∃ h0 t0, splitListOn ';'
            (joinSemi ((c2 :: rest2).map (fun c => c.name ++ "=" ++ c.value))).data
            = h0 :: t0 := by
        cases hsp : splitListOn ';'
            (joinSemi ((c2 :: rest2).map (fun c => c.name ++ "=" ++ c.value))).data with
        | nil => exact absurd hsp (splitListOn_ne_nil ';' _)
        | cons h0 t0 => exact ⟨h0, t0, rfl⟩
      unfold parseCookieHeader at hih ⊢
      rw [hdata, splitListOn_append_sep ';' _ _ hd1,
        splitListOn_cons_ne ';' ' ' _ (by decide) (h0 :: t0) hsplit]
      rw [hsplit] at hih
      simp only [List.map_cons, List.headD_cons, List.tail_cons] at hih ⊢
      rw [trimChars_cons_space, hfrag]
      exact congrArg _ hih

/-- C8 counterexample: for a session that is valid at call time but holds a
cookie whose value contains `'; '`, `getCookieHeader` still serializes it as
`name=value` pairs joined by `'; '`, but feeding that header back through a
standard cookie parser does not reproduce the original name/value pairs. -/
theorem cookie_header_roundtrip_cex :
    isSessionValid [⟨"sid", "a; b", "motor.com"⟩] (some 999) 1000 = true ∧
    getCookieHeaderM [] 1000 ⟨[⟨"sid", "a; b", "motor.com"⟩], some 999⟩ initialProgress none
        = Except.ok "sid=a; b" ∧
    parseCookieHeader "sid=a; b" ≠ [("sid", "a; b")] := by
  refine ⟨by decide, by rfl, by decide⟩

/-- C8 amended: for every session valid at call time, `getCookieHeader`
returns exactly the cookies serialized as `name=value` pairs joined by `'; '`
in cookie order (no authentication is triggered); and whenever every cookie's
name and value are free of `';'`, the name free of `'='`, and the serialized
attribute stable under trimming — as holds for every cookie stored by the
`CookieJar` parser — parsing that header back with a standard cookie parser
reproduces the original name/value pairs. -/
theorem cookie_header_amended (script : List (Except String HttpResponse)) (now : Int)
    (sess : Session) (prog : AuthProgress) (store : Option StoreRecord)
    (hvalid : isSessionValid sess.cookies sess.lastAuthTime now = true)
    (hwf : ∀ c ∈ sess.cookies, wfCookie c) :
    getCookieHeaderM script now sess prog store
        = Except.ok (joinSemi (sess.cookies.map (fun c => c.name ++ "=" ++ c.value))) ∧
    parseCookieHeader (joinSemi (sess.cookies.map (fun c => c.name ++ "=" ++ c.value)))
        = sess.cookies.map (fun c => (c.name, c.value)) := by
  have hne : sess.cookies ≠ [] := by
    intro h
    rw [h] at hvalid
    simp [isSessionValid] at hvalid
  constructor
  · unfold getCookieHeaderM getCookiesM
    rw [if_pos hvalid]
    rfl
  · exact parse_joinSemi sess.cookies hne hwf

theorem cookie_header_amended_witness :
    isSessionValid [⟨"sid", "abc", "motor.com"⟩, ⟨"tok", "9x", ".motor.com"⟩]
        (some 999) 1000 = true ∧
    getCookieHeaderM [] 1000
        ⟨[⟨"sid", "abc", "motor.com"⟩, ⟨"tok", "9x", ".motor.com"⟩], some 999⟩
        initialProgress none
      = Except.ok (joinSemi
          ([(⟨"sid", "abc", "motor.com"⟩ : Cookie), ⟨"tok", "9x", ".motor.com"⟩].map
            (fun c => c.name ++ "=" ++ c.value))) ∧
    parseCookieHeader (joinSemi
        ([(⟨"sid", "abc", "motor.com"⟩ : Cookie), ⟨"tok", "9x", ".motor.com"⟩].map
          (fun c => c.name ++ "=" ++ c.value)))
      = [("sid", "abc"), ("tok", "9x")] := by
  have hwf : ∀ c ∈ [(⟨"sid", "abc", "motor.com"⟩ : Cookie), ⟨"tok", "9x", ".motor.com"⟩],
      wfCookie c := by
    intro c hc
    simp only [List.mem_cons, List.mem_singleton] at hc
    rcases hc with rfl | rfl | h
    · exact ⟨by decide, by decide, by decide, by decide⟩
    · exact ⟨by decide, by decide, by decide, by decide⟩
    · simp at h
  refine ⟨by decide, ?_, ?_⟩
  · exact (cookie_header_amended [] 1000
      ⟨[⟨"sid", "abc", "motor.com"⟩, ⟨"tok", "9x", ".motor.com"⟩], some 999⟩
      initialProgress none (by decide) hwf).1
  · exact ((cookie_header_amended [] 1000
      ⟨[⟨"sid", "abc", "motor.com"⟩, ⟨"tok", "9x", ".motor.com"⟩], some 999⟩
      initialProgress none (by decide) hwf).2).trans (by decide)

/-- C10: `CookieJar.setCookie` splits the first attribute of a `Set-Cookie`
header on every `'='` and keeps only the first two fragments, so a cookie
whose value contains `'='` is stored with its value truncated at that `'='`
(and `getAllCookies` does not reproduce the original value); a header whose
first attribute yields no non-empty name and value — no `'='` at all, an
empty name, or an empty value — leaves the jar unchanged. -/
theorem setCookie_truncation (jar : List Cookie) (d : String)
    (n v1 v2 rest m rest2 w rest3 : List Char)
    (hn_ne : n ≠ []) (hv1_ne : v1 ≠ [])
    (hn_eq : '=' ∉ n) (hv1_eq : '=' ∉ v1)
    (hn_semi : ';' ∉ n) (hv1_semi : ';' ∉ v1) (hv2_semi : ';' ∉ v2)
    (htrim : trimChars (n ++ '=' :: (v1 ++ '=' :: v2)) = n ++ '=' :: (v1 ++ '=' :: v2))
    (hm_eq : '=' ∉ m) (hm_semi : ';' ∉ m) (hmtrim : trimChars m = m)
    (hw_eq : '=' ∉ w) (hw_semi : ';' ∉ w) (hwtrim : trimChars ('=' :: w) = '=' :: w)
    (hn2trim : trimChars (n ++ ['=']) = n ++ ['=']) :
    setCookieJar jar (String.mk ((n ++ '=' :: (v1 ++ '=' :: v2)) ++ ';' :: rest)) d
        = jarInsert jar (String.mk n) (String.mk v1) d ∧
    String.mk v1 ≠ String.mk (v1 ++ '=' :: v2) ∧
    setCookieJar jar (String.mk (m ++ ';' :: rest2)) d = jar ∧
    setCookieJar jar (String.mk (('=' :: w) ++ ';' :: rest3)) d = jar ∧
    setCookieJar jar (String.mk ((n ++ ['=']) ++ ';' :: rest3)) d = jar := by
  refine ⟨?_, ?_, ?_, ?_, ?_⟩
  · have hd1 : ';' ∉ n ++ '=' :: (v1 ++ '=' :: v2) :=
      not_mem_append_chars hn_semi (not_mem_cons_chars (by decide)
        (not_mem_append_chars hv1_semi (not_mem_cons_chars (by decide) hv2_semi)))
    unfold setCookieJar
    rw [if_neg (mk_ne_empty _ (by simp [hn_ne]))]
    simp only
    rw [splitListOn_append_sep ';' _ _ hd1]
    simp only [List.headD_cons]
    rw [htrim]
    rw [splitListOn_append_sep '=' n (v1 ++ '=' :: v2) hn_eq]
    rw [splitListOn_append_sep '=' v1 v2 hv1_eq]
    simp only
    rw [if_pos ⟨hn_ne, hv1_ne⟩]
  · intro he
    have hd := congrArg String.data he
    simp only at hd
    have hl := congrArg List.length hd
    simp [List.length_append] at hl
  · have hne2 : m ++ ';' :: rest2 ≠ [] := by simp
    unfold setCookieJar
    rw [if_neg (mk_ne_empty _ hne2)]
    simp only
    rw [splitListOn_append_sep ';' _ _ hm_semi]
    simp only [List.headD_cons]
    rw [hmtrim]
    rw [splitListOn_sepFree '=' m hm_eq]
  · have hd : ';' ∉ '=' :: w := not_mem_cons_chars (by decide) hw_semi
    unfold setCookieJar
    rw [if_neg (mk_ne_empty _ (by simp))]
    simp only
    rw [splitListOn_append_sep ';' _ _ hd]
    simp only [List.headD_cons]
    rw [hwtrim]
    rw [show splitListOn '=' ('=' :: w) = [] :: splitListOn '=' w from by
      simp [splitListOn]]
    rw [splitListOn_sepFree '=' w hw_eq]
    simp only
    rw [if_neg (by simp)]
  · have hd : ';' ∉ n ++ ['='] := not_mem_append_chars hn_semi (by decide)
    unfold setCookieJar
    rw [if_neg (mk_ne_empty _ (by simp [hn_ne]))]
    simp only
    rw [splitListOn_append_sep ';' _ _ hd]
    simp only [List.headD_cons]
    rw [hn2trim]
    rw [splitListOn_append_sep '=' n [] hn_eq]
    simp only [splitListOn]
    rw [if_neg (by simp)]

theorem setCookie_truncation_witness :
    (['s', 'i', 'd'] : List Char) ≠ [] ∧
    setCookieJar []
        (String.mk ((['s', 'i', 'd'] ++ '=' :: (['a'] ++ '=' :: ['b'])) ++ ';' :: [' '])) "h"
      = jarInsert [] (String.mk ['s', 'i', 'd']) (String.mk ['a']) "h" ∧
    String.mk ['a'] ≠ String.mk (['a'] ++ '=' :: ['b']) ∧
    setCookieJar [] (String.mk (['t', 'o', 'k'] ++ ';' :: [' '])) "h" = [] ∧
    setCookieJar [] (String.mk (('=' :: ['x']) ++ ';' :: [])) "h" = [] ∧
    setCookieJar [] (String.mk ((['s', 'i', 'd'] ++ ['=']) ++ ';' :: [])) "h" = [] :=
  ⟨by decide,
    (setCookie_truncation [] "h" ['s', 'i', 'd'] ['a'] ['b'] [' '] ['t', 'o', 'k'] [' ']
      ['x'] [] (by decide) (by decide) (by decide) (by decide) (by decide) (by decide)
      (by decide) (by decide) (by decide) (by decide) (by decide) (by decide) (by decide)
      (by decide) (by decide)).1,
    (setCookie_truncation [] "h" ['s', 'i', 'd'] ['a'] ['b'] [' '] ['t', 'o', 'k'] [' ']
      ['x'] [] (by decide) (by decide) (by decide) (by decide) (by decide) (by decide)
      (by decide) (by decide) (by decide) (by decide) (by decide) (by decide) (by decide)
      (by decide) (by decide)).2.1,
    (setCookie_truncation [] "h" ['s', 'i', 'd'] ['a'] ['b'] [' '] ['t', 'o', 'k'] [' ']
      ['x'] [] (by decide) (by decide) (by decide) (by decide) (by decide) (by decide)
      (by decide) (by decide) (by decide) (by decide) (by decide) (by decide) (by decide)
      (by decide) (by decide)).2.2.1,
    (setCookie_truncation [] "h" ['s', 'i', 'd'] ['a'] ['b'] [' '] ['t', 'o', 'k'] [' ']
      ['x'] [] (by decide) (by decide) (by decide) (by decide) (by decide) (by decide)
      (by decide) (by decide) (by decide) (by decide) (by decide) (by decide) (by decide)
      (by decide) (by decide)).2.2.2.1,
    (setCookie_truncation [] "h" ['s', 'i', 'd'] ['a'] ['b'] [' '] ['t', 'o', 'k'] [' ']
      ['x'] [] (by decide) (by decide) (by decide) (by decide) (by decide) (by decide)
      (by decide) (by decide) (by decide) (by decide) (by decide) (by decide) (by decide)
      (by decide) (by decide)).2.2.2.2⟩
